import Mathlib

/-!
Shallow embedding of `noisemachine.py` (the noise-machine repository):
the filename-selection engine (`FilenameGenerator`), the startup binding
pass (`NoiseMachine.__init_buttons`) and one iteration of the press
monitor loop (`NoiseMachine.monitor` body plus `NoiseMachine.__play_sound`).

Python machine integers are unbounded, so `int` is embedded as `Int`.
Python strings compare lexicographically by code point, embedded via
`Char.toNat` key lists.  Python statements that raise (`int(...)` on a
non-numeric string, dict indexing misses, list indexing out of range,
`add_filename` on a SINGLE generator) are embedded in `Except String` /
`Option` results.
-/

/-- Embeds `PressType` (noisemachine.py lines 20-26). -/
inductive PressType where
  | SINGLE
  | DOUBLE
deriving DecidableEq, Repr

/-- Embeds `GeneratorType` (noisemachine.py lines 29-37). -/
inductive GeneratorType where
  | SINGLE
  | SEQUENCE
  | RANDOM
deriving DecidableEq, Repr

/-- Code-point key of a Python string, used to embed Python string
comparison (`str.__lt__`), which is lexicographic on code points. -/
def strKey (s : String) : List Nat := s.data.map Char.toNat

/-- Lexicographic strict order on code-point lists: embeds Python `<`
on strings (restricted to the keys). -/
def natListLtB : List Nat → List Nat → Bool
  | [], [] => false
  | [], _ :: _ => true
  | _ :: _, [] => false
  | a :: as, b :: bs => if a < b then true else if b < a then false else natListLtB as bs

/-- Python tuple comparison `(position, filename) <= (position', filename')`:
lexicographic on the pair, strings compared by code point (`s1 <= s2` in
Python is `not (s2 < s1)`).  This is the order `list.sort()` sorts by in
`FilenameGenerator.add_filename`. -/
def lexLe (a b : Int × String) : Prop :=
  a.1 < b.1 ∨ (a.1 = b.1 ∧ natListLtB (strKey b.2) (strKey a.2) = false)

instance : DecidableRel lexLe := fun _ _ => inferInstanceAs (Decidable (_ ∨ _))

/-- Embeds Python `list.sort()` on `(position, filename)` tuples: the
result is the sorted permutation under the total tuple order (`list.sort`
is stable, and entries tied under the full tuple order are equal tuples,
so any correct sort produces the same list). -/
def sortPairs (l : List (Int × String)) : List (Int × String) := l.insertionSort lexLe

/-- Embeds `FilenameGenerator` (noisemachine.py lines 40-89): the private
`__filenames` list of `(position, filename)` tuples, the generator type,
and the private `__counter` cursor. -/
structure FilenameGenerator where
  filenames : List (Int × String)
  generator_type : GeneratorType
  counter : Nat
deriving DecidableEq, Repr

/-- Embeds `FilenameGenerator.next` (lines 56-79).  The Python method
indexes `self.__filenames`, which raises `IndexError` when the index is
out of range: embedded by `List.get?`, so `none` marks the raising runs.
`r` stands for the value drawn by `random.randrange(0, len)` modulo the
length (the draw is the only nondeterminism).  The returned generator
carries the updated `__counter`. -/
def FilenameGenerator.next (g : FilenameGenerator) (r : Nat) : Option (String × FilenameGenerator) :=
  match g.generator_type with
  | GeneratorType.SINGLE => (g.filenames.get? 0).map (fun p => (p.2, g))
  | GeneratorType.SEQUENCE =>
      (g.filenames.get? g.counter).map (fun p =>
        (p.2, { g with counter := if g.filenames.length ≤ g.counter + 1 then 0 else g.counter + 1 }))
  | GeneratorType.RANDOM =>
      if 2 ≤ g.filenames.length then
        (g.filenames.get? (r % g.filenames.length)).map (fun p => (p.2, g))
      else
        (g.filenames.get? 0).map (fun p => (p.2, g))

/-- Embeds `FilenameGenerator.add_filename` (lines 81-89): raises
`RuntimeError` on a SINGLE generator, otherwise appends `(position,
filename)` and re-sorts with `list.sort()`. -/
def FilenameGenerator.add_filename (g : FilenameGenerator) (filename : String) (position : Int) :
    Except String FilenameGenerator :=
  if g.generator_type = GeneratorType.SINGLE then
    Except.error "RuntimeError"
  else
    Except.ok { g with filenames := sortPairs (g.filenames ++ [(position, filename)]) }

/-- Outputs of repeated calls to `FilenameGenerator.next`: the filename
returned by the `k`-th call (0-based), threading the mutated generator,
with every random draw fixed to `r`.  `none` marks a raising run. -/
def nextOutputs (g : FilenameGenerator) (r : Nat) : Nat → Option String
  | 0 => (g.next r).map (fun p => p.1)
  | k + 1 =>
    match g.next r with
    | some (_, g') => nextOutputs g' r k
    | none => none

/-- Embeds Python `str.split` with the fixed delimiter of
`file[:-4].split("-")` (noisemachine.py line 236), character by
character: splitting never yields an empty list, the empty string splits
to `[[]]`, and consecutive delimiters yield empty fields. -/
def splitDash : List Char → List (List Char)
  | [] => [[]]
  | c :: rest =>
    if c = '-' then [] :: splitDash rest
    else
      match splitDash rest with
      | [] => [[c]]
      | f :: fs => (c :: f) :: fs

/-- The field list of a filename: strip the 4-character extension
(` file[:-4] `) and split on the delimiter (line 236). -/
def fieldsOf (file : String) : List (List Char) :=
  splitDash (file.data.take (file.data.length - 4))

/-- Decimal digit value of a character, `none` for a non-digit. -/
def digitVal (c : Char) : Option Nat :=
  if '0'.toNat ≤ c.toNat ∧ c.toNat ≤ '9'.toNat then some (c.toNat - '0'.toNat) else none

/-- Accumulating decimal parse of a digit string; `none` when any
character is a non-digit. -/
def parseDigits : List Char → Nat → Option Nat
  | [], acc => some acc
  | c :: rest, acc =>
    match digitVal c with
    | some d => parseDigits rest (acc * 10 + d)
    | none => none

/-- Embeds Python `int(...)` applied to a filename field (lines 237 and
253): an optional sign followed by at least one decimal digit parses to
the integer; everything else raises `ValueError`, embedded as `none`. -/
def parseInt : List Char → Option Int
  | [] => none
  | '-' :: rest =>
    match rest with
    | [] => none
    | _ => (parseDigits rest 0).map (fun n => -(n : Int))
  | '+' :: rest =>
    match rest with
    | [] => none
    | _ => (parseDigits rest 0).map (fun n => (n : Int))
  | l => (parseDigits l 0).map (fun n => (n : Int))

/-- Embeds `ButtonData` (noisemachine.py lines 92-103).  The gpiozero
object is embedded by its observable lifecycle state: `0` for `None`
(never created), `1` for a live `gpiozero.Button`, `2` for a closed one.
The `filename_generators` dict over the two `PressType` keys is embedded
as the two optional fields `single` and `double`. -/
structure ButtonData where
  gpio_state : Nat := 0
  button_id : Int := 0
  single : Option FilenameGenerator := none
  double : Option FilenameGenerator := none
deriving DecidableEq, Repr

/-- `filename_generators.get(press_type)` (lines 177, 187, 257, ...). -/
def ButtonData.getGen (b : ButtonData) : PressType → Option FilenameGenerator
  | PressType.SINGLE => b.single
  | PressType.DOUBLE => b.double

/-- `filename_generators[press_type] = gen` assignment. -/
def ButtonData.setGen (b : ButtonData) : PressType → FilenameGenerator → ButtonData
  | PressType.SINGLE, g => { b with single := some g }
  | PressType.DOUBLE, g => { b with double := some g }

/-- Embeds `self.buttons.get(button_id)` on the insertion-ordered Python
dict `self.buttons`, embedded as an association list. -/
def dictGet (d : List (Int × ButtonData)) (k : Int) : Option ButtonData :=
  match d with
  | [] => none
  | (k', v) :: rest => if k' = k then some v else dictGet rest k

/-- Embeds `self.buttons[button_id] = value`: update in place when the
key exists (Python dicts keep insertion order), append otherwise. -/
def dictSet (d : List (Int × ButtonData)) (k : Int) (v : ButtonData) : List (Int × ButtonData) :=
  match d with
  | [] => [(k, v)]
  | (k', v') :: rest => if k' = k then (k, v) :: rest else (k', v') :: dictSet rest k v

/-- State of the binding pass: the accumulated button table plus the
filenames logged with the warning `Invalid filename '%s'` (line 320). -/
structure BindState where
  buttons : List (Int × ButtonData)
  warnings : List String
deriving DecidableEq, Repr

/-- Embeds one press-type arm of `__init_buttons` (lines 255-285 for
`single`, 287-317 for `double`): dispatch on the field count and the
policy field, creating a RANDOM / SEQUENCE generator, adding to an
existing one (which can raise `RuntimeError` via `add_filename`), or
overwriting with a fixed SINGLE generator. -/
def bindGen (existing : Option FilenameGenerator) (order_number : Int) (file : String)
    (nfields : Nat) (policy : List Char) : Except String FilenameGenerator :=
  if nfields = 4 ∧ policy = "random".data then
    match existing with
    | none => Except.ok ⟨[(order_number, file)], GeneratorType.RANDOM, 0⟩
    | some g => g.add_filename file order_number
  else if nfields = 4 ∧ policy = "sequence".data then
    match existing with
    | none => Except.ok ⟨[(order_number, file)], GeneratorType.SEQUENCE, 0⟩
    | some g => g.add_filename file order_number
  else
    Except.ok ⟨[(1, file)], GeneratorType.SINGLE, 0⟩

/-- Embeds the body of the `for file in files` loop of
`NoiseMachine.__init_buttons` (noisemachine.py lines 235-329) for one
file, as a transformer of the binding state.  Python raising statements
(`int(...)` on a bad field, `add_filename` on a SINGLE generator) become
`Except.error`.  The Python loop mutates dict values in place through the
`new_button` alias; the embedding writes the updated value back with
`dictSet`, which is equivalent. -/
def initButtonsStep (st : BindState) (file : String) : Except String BindState :=
  let split_filename := fieldsOf file
  match parseInt (split_filename.headD []) with
  | none => Except.error "ValueError"
  | some button_id =>
    let new0 := (dictGet st.buttons button_id).getD {}
    let new1 := { new0 with button_id := button_id }
    if 2 ≤ split_filename.length then
      let new2 := if new1.gpio_state = 0 then { new1 with gpio_state := 1 } else new1
      match if split_filename.length = 4 then parseInt (split_filename.getD 3 []) else some 0 with
      | none => Except.error "ValueError"
      | some order_number =>
        let field1 := split_filename.getD 1 []
        let field2 := split_filename.getD 2 []
        if field1 = "single".data then
          match bindGen new2.single order_number file split_filename.length field2 with
          | Except.error e => Except.error e
          | Except.ok g =>
            Except.ok { st with
              buttons := dictSet st.buttons button_id { new2 with single := some g } }
        else if field1 = "double".data then
          match bindGen new2.double order_number file split_filename.length field2 with
          | Except.error e => Except.error e
          | Except.ok g =>
            Except.ok { st with
              buttons := dictSet st.buttons button_id { new2 with double := some g } }
        else
          let new3 :=
            if new2.single.isNone ∧ new2.double.isNone then { new2 with gpio_state := 2 } else new2
          let buttons' :=
            if (dictGet st.buttons button_id).isSome then dictSet st.buttons button_id new3
            else st.buttons
          Except.ok { buttons := buttons', warnings := st.warnings ++ [file] }
    else
      let buttons' :=
        if (dictGet st.buttons button_id).isSome then dictSet st.buttons button_id new1
        else st.buttons
      Except.ok { st with buttons := buttons' }

/-- The `for file in files` loop of `__init_buttons`: fold
`initButtonsStep` over the scanned filenames, stopping at the first
uncaught exception (the loop body has no exception handler). -/
def runBinder : BindState → List String → Except String BindState
  | st, [] => Except.ok st
  | st, f :: rest =>
    match initButtonsStep st f with
    | Except.ok st' => runBinder st' rest
    | Except.error e => Except.error e

/-- Embeds `NoiseMachine.__init_buttons` (lines 224-331) applied to the
`.wav` files found in the working directory, starting from the empty
button table of `NoiseMachine.__init__`. -/
def initButtons (files : List String) : Except String BindState :=
  runBinder ⟨[], []⟩ files

/-- `last_button_pressed` as read at the classification point: the last
press during the arming window wrote it (each `__button_press` stores its
button's pin, noisemachine.py lines 333-338); with no press in the window
it still holds the armed button. -/
def lastAfter (armed : Int) (presses : List Int) : Int :=
  (presses.getLast?).getD armed

/-- Embeds the classification part of one armed decision cycle of
`NoiseMachine.monitor` (lines 165-198): `armed` is the snapshot
`moinitored_button`, `presses` are the buttons pressed during the
`button_event.wait(0.25)` arming window in order (so the press signal is
set again iff `presses` is nonempty).  Returns the classified
(button, press type), or `none` for the aborted cycle. -/
def classify (armed : Int) (presses : List Int) : Option (Int × PressType) :=
  if lastAfter armed presses = armed then
    if presses.isEmpty then some (armed, PressType.SINGLE)
    else some (armed, PressType.DOUBLE)
  else none

/-- The monitor-visible state mutated by one loop iteration: the button
table and whether `self.sound_player` is a live (still running) playback
process. -/
structure MachineState where
  buttons : List (Int × ButtonData)
  soundPlaying : Bool
deriving DecidableEq, Repr

/-- Observable outcome of one iteration of the `while` loop of
`NoiseMachine.monitor`: the successor state, whether a running playback
was terminated (line 152), the classification made, and the filename
whose playback was requested (the `subprocess.Popen` argument of
`__play_sound`, line 214), if any. -/
structure CycleResult where
  state : MachineState
  interrupted : Bool
  classified : Option (Int × PressType)
  played : Option String
deriving DecidableEq, Repr

/-- Embeds one iteration of the `while` loop of `NoiseMachine.monitor`
(noisemachine.py lines 144-198) together with `__play_sound` (lines
204-221).  `eventSet` tells whether `button_event` was set when the
2-second wait returned; `lastPressed` is `last_button_pressed` at that
moment; `presses` are the window presses as in `classify`; `r` fixes the
random draw.  `self.buttons[moinitored_button]` is a raw dict index
(lines 177 and 187), so a missing button raises `KeyError`; `next` on an
empty selector raises `IndexError`; both are `Except.error` outcomes
(the `try` block only catches `KeyboardInterrupt`). -/
def monitorCycle (st : MachineState) (eventSet : Bool) (lastPressed : Int)
    (presses : List Int) (r : Nat) : Except String CycleResult :=
  if eventSet = false then Except.ok ⟨st, false, none, none⟩
  else if st.soundPlaying then
    Except.ok ⟨{ st with soundPlaying := false }, true, none, none⟩
  else
    match classify lastPressed presses with
    | none => Except.ok ⟨st, false, none, none⟩
    | some (b, pt) =>
      match dictGet st.buttons b with
      | none => Except.error "KeyError"
      | some bd =>
        match bd.getGen pt with
        | none => Except.ok ⟨st, false, some (b, pt), none⟩
        | some g =>
          match g.next r with
          | none => Except.error "IndexError"
          | some (f, g') =>
            Except.ok ⟨⟨dictSet st.buttons b (bd.setGen pt g'), true⟩, false, some (b, pt), some f⟩

instance {ε α : Type} [DecidableEq ε] [DecidableEq α] : DecidableEq (Except ε α) := fun x y =>
  match x, y with
  | Except.error e, Except.error f =>
    if h : e = f then isTrue (congrArg Except.error h)
    else isFalse (fun hh => h (Except.error.inj hh))
  | Except.error _, Except.ok _ => isFalse (fun hh => Except.noConfusion hh)
  | Except.ok _, Except.error _ => isFalse (fun hh => Except.noConfusion hh)
  | Except.ok a, Except.ok b =>
    if h : a = b then isTrue (congrArg Except.ok h)
    else isFalse (fun hh => h (Except.ok.inj hh))

theorem natListLtB_irrefl : ∀ x, natListLtB x x = false
  | [] => rfl
  | _ :: as => by simp [natListLtB, natListLtB_irrefl as]

theorem natListLtB_asymm : ∀ x y, natListLtB x y = true → natListLtB y x = false
  | [], [], h => by simp [natListLtB] at h
  | [], _ :: _, _ => by simp [natListLtB]
  | _ :: _, [], h => by simp [natListLtB] at h
  | a :: as, b :: bs, h => by
    simp only [natListLtB] at h ⊢
    rcases Nat.lt_trichotomy a b with h1 | h1 | h1
    · simp [h1, Nat.lt_asymm h1]
    · subst h1
      simp only [Nat.lt_irrefl, if_false] at h ⊢
      exact natListLtB_asymm as bs h
    · simp [h1, Nat.lt_asymm h1] at h

theorem natListLtB_trans :
    ∀ x y z, natListLtB x y = true → natListLtB y z = true → natListLtB x z = true
  | [], [], _, h1, _ => by simp [natListLtB] at h1
  | [], _ :: _, [], _, h2 => by simp [natListLtB] at h2
  | [], _ :: _, _ :: _, _, _ => by simp [natListLtB]
  | _ :: _, [], _, h1, _ => by simp [natListLtB] at h1
  | _ :: _, _ :: _, [], _, h2 => by simp [natListLtB] at h2
  | a :: as, b :: bs, c :: cs, h1, h2 => by
    simp only [natListLtB] at h1 h2 ⊢
    rcases Nat.lt_trichotomy a b with hab | hab | hab
    · rcases Nat.lt_trichotomy b c with hbc | hbc | hbc
      · simp [Nat.lt_trans hab hbc]
      · subst hbc
        simp [hab]
      · simp [Nat.lt_asymm hbc, hbc] at h2
    · subst hab
      rcases Nat.lt_trichotomy a c with hac | hac | hac
      · simp [hac]
      · subst hac
        simp only [Nat.lt_irrefl, if_false] at h1 h2 ⊢
        exact natListLtB_trans as bs cs h1 h2
      · simp [Nat.lt_asymm hac, hac] at h2
    · simp [Nat.lt_asymm hab, hab] at h1

theorem natListLtB_trichotomy : ∀ x y, natListLtB x y = true ∨ x = y ∨ natListLtB y x = true
  | [], [] => Or.inr (Or.inl rfl)
  | [], _ :: _ => Or.inl rfl
  | _ :: _, [] => Or.inr (Or.inr rfl)
  | a :: as, b :: bs => by
    simp only [natListLtB]
    rcases Nat.lt_trichotomy a b with h | h | h
    · simp [h]
    · subst h
      simp only [lt_irrefl, if_false]
      rcases natListLtB_trichotomy as bs with h2 | h2 | h2
      · exact Or.inl h2
      · exact Or.inr (Or.inl (by rw [h2]))
      · exact Or.inr (Or.inr h2)
    · right; right
      simp [h, Nat.lt_asymm h]

instance : IsTotal (Int × String) lexLe := by
  constructor
  intro a b
  unfold lexLe
  rcases lt_trichotomy a.1 b.1 with h | h | h
  · exact Or.inl (Or.inl h)
  · by_cases hs : natListLtB (strKey b.2) (strKey a.2) = true
    · exact Or.inr (Or.inr ⟨h.symm, natListLtB_asymm _ _ hs⟩)
    · simp only [Bool.not_eq_true] at hs
      exact Or.inl (Or.inr ⟨h, hs⟩)
  · exact Or.inr (Or.inl h)

instance : IsTrans (Int × String) lexLe := by
  constructor
  intro a b c hab hbc
  unfold lexLe at *
  rcases hab with h1 | ⟨e1, f1⟩
  · rcases hbc with h2 | ⟨e2, _⟩
    · exact Or.inl (h1.trans h2)
    · exact Or.inl (by omega)
  · rcases hbc with h2 | ⟨e2, f2⟩
    · exact Or.inl (by omega)
    · refine Or.inr ⟨e1.trans e2, ?_⟩
      by_contra hc
      simp only [Bool.not_eq_false] at hc
      rcases natListLtB_trichotomy (strKey a.2) (strKey b.2) with hx | hx | hx
      · have := natListLtB_trans _ _ _ hc hx
        simp [this] at f2
      · rw [hx] at hc
        simp [hc] at f2
      · simp [hx] at f1

theorem sortPairs_sorted (l : List (Int × String)) : List.Sorted lexLe (sortPairs l) :=
  List.sorted_insertionSort lexLe l

theorem sortPairs_perm (l : List (Int × String)) : (sortPairs l).Perm l :=
  List.perm_insertionSort lexLe l

theorem sortPairs_length (l : List (Int × String)) : (sortPairs l).length = l.length :=
  (sortPairs_perm l).length_eq

theorem sortPairs_ne_nil {l : List (Int × String)} (h : l ≠ []) : sortPairs l ≠ [] := by
  intro hc
  apply h
  have := sortPairs_length l
  rw [hc] at this
  exact List.length_eq_zero.mp this.symm

theorem dictGet_dictSet (d : List (Int × ButtonData)) (k : Int) (v : ButtonData) (b : Int) :
    dictGet (dictSet d k v) b = if k = b then some v else dictGet d b := by
  induction d with
  | nil => simp [dictGet, dictSet]
  | cons p rest ih =>
    obtain ⟨k', v'⟩ := p
    by_cases h1 : k' = k
    · subst h1
      by_cases h2 : k' = b <;> simp [dictGet, dictSet, h2]
    · by_cases h2 : k' = b
      · subst h2
        have h3 : ¬ k = k' := fun hh => h1 hh.symm
        simp [dictGet, dictSet, h1, h3]
      · simp [dictGet, dictSet, h1, h2, ih]

/-- The invariant every `FilenameGenerator` reachable from the binding
pass satisfies: a nonempty filename list, the cursor at the start, and
the list sorted by the tuple order. -/
def binderInv (g : FilenameGenerator) : Prop :=
  g.filenames ≠ [] ∧ g.counter = 0 ∧ List.Sorted lexLe g.filenames

/-- The generator invariant that makes `next` safe: nonempty list and
in-range cursor. -/
def genInv (g : FilenameGenerator) : Prop :=
  g.filenames ≠ [] ∧ g.counter < g.filenames.length

theorem binderInv_genInv {g : FilenameGenerator} (h : binderInv g) : genInv g := by
  obtain ⟨h1, h2, _⟩ := h
  exact ⟨h1, by rw [h2]; exact List.length_pos.mpr h1⟩

/-- Every button-table value satisfies this: both optional selectors
satisfy the binder invariant. -/
def bdInv (bd : ButtonData) : Prop :=
  (∀ g, bd.single = some g → binderInv g) ∧ (∀ g, bd.double = some g → binderInv g)

/-- Invariant of the whole button table. -/
def tableInv (d : List (Int × ButtonData)) : Prop :=
  ∀ b bd, dictGet d b = some bd → bdInv bd

theorem tableInv_nil : tableInv [] := by
  intro b bd h
  simp [dictGet] at h

theorem tableInv_dictSet {d : List (Int × ButtonData)} {k : Int} {v : ButtonData}
    (hd : tableInv d) (hv : bdInv v) : tableInv (dictSet d k v) := by
  intro b bd h
  rw [dictGet_dictSet] at h
  by_cases hk : k = b
  · rw [if_pos hk] at h
    cases h
    exact hv
  · rw [if_neg hk] at h
    exact hd b bd h

theorem bdInv_default : bdInv {} := by
  constructor <;> intro g h <;> exact Option.noConfusion h

theorem add_filename_binderInv {g g' : FilenameGenerator} {f : String} {p : Int}
    (hg : binderInv g) (h : g.add_filename f p = Except.ok g') : binderInv g' := by
  unfold FilenameGenerator.add_filename at h
  by_cases ht : g.generator_type = GeneratorType.SINGLE
  · rw [if_pos ht] at h
    exact Except.noConfusion h
  · rw [if_neg ht] at h
    cases h
    refine ⟨?_, hg.2.1, sortPairs_sorted _⟩
    exact sortPairs_ne_nil (by simp)

theorem bindGen_binderInv {existing : Option FilenameGenerator} {o : Int} {f : String}
    {n : Nat} {pol : List Char} {g : FilenameGenerator}
    (hex : ∀ g0, existing = some g0 → binderInv g0)
    (h : bindGen existing o f n pol = Except.ok g) : binderInv g := by
  unfold bindGen at h
  split at h
  · match existing, h with
    | none, h => cases h; exact ⟨by simp, rfl, List.sorted_singleton _⟩
    | some g0, h => exact add_filename_binderInv (hex g0 rfl) h
  · split at h
    · match existing, h with
      | none, h => cases h; exact ⟨by simp, rfl, List.sorted_singleton _⟩
      | some g0, h => exact add_filename_binderInv (hex g0 rfl) h
    · cases h
      exact ⟨by simp, rfl, List.sorted_singleton _⟩

theorem bdInv_getD {d : List (Int × ButtonData)} (hd : tableInv d) (k : Int) :
    bdInv ((dictGet d k).getD {}) := by
  cases hh : dictGet d k
  · exact bdInv_default
  · exact hd k _ hh

theorem initButtonsStep_tableInv {st st' : BindState} {file : String}
    (hst : tableInv st.buttons) (h : initButtonsStep st file = Except.ok st') :
    tableInv st'.buttons := by
  unfold initButtonsStep at h
  dsimp only [] at h
  split at h
  · exact Except.noConfusion h
  · rename_i button_id hparse
    by_cases hlen : 2 ≤ (fieldsOf file).length
    · rw [if_pos hlen] at h
      split at h
      · exact Except.noConfusion h
      · rename_i order_number horder
        by_cases hf1 : (fieldsOf file).getD 1 [] = "single".data
        · rw [if_pos hf1] at h
          split at h
          · exact Except.noConfusion h
          · rename_i g hg
            cases h
            apply tableInv_dictSet hst
            constructor
            · intro g0 hg0
              cases hg0
              refine bindGen_binderInv ?_ hg
              intro g1 hg1
              have hbd := bdInv_getD hst button_id
              split at hg1
              all_goals exact hbd.1 g1 hg1
            · intro g0 hg0
              have hbd := bdInv_getD hst button_id
              revert hg0
              split
              all_goals intro hg0; exact hbd.2 g0 hg0
        · rw [if_neg hf1] at h
          by_cases hf2 : (fieldsOf file).getD 1 [] = "double".data
          · rw [if_pos hf2] at h
            split at h
            · exact Except.noConfusion h
            · rename_i g hg
              cases h
              apply tableInv_dictSet hst
              constructor
              · intro g0 hg0
                have hbd := bdInv_getD hst button_id
                revert hg0
                split
                all_goals intro hg0; exact hbd.1 g0 hg0
              · intro g0 hg0
                cases hg0
                refine bindGen_binderInv ?_ hg
                intro g1 hg1
                have hbd := bdInv_getD hst button_id
                split at hg1
                all_goals exact hbd.2 g1 hg1
          · rw [if_neg hf2] at h
            cases h
            have hbd := bdInv_getD hst button_id
            by_cases hex : (dictGet st.buttons button_id).isSome
            · simp only [if_pos hex]
              apply tableInv_dictSet hst
              constructor
              · intro g0 hg0
                revert hg0
                split
                all_goals split
                all_goals intro hg0; exact hbd.1 g0 hg0
              · intro g0 hg0
                revert hg0
                split
                all_goals split
                all_goals intro hg0; exact hbd.2 g0 hg0
            · simp only [if_neg hex]
              exact hst
    · rw [if_neg hlen] at h
      cases h
      by_cases hex : (dictGet st.buttons button_id).isSome
      · simp only [if_pos hex]
        apply tableInv_dictSet hst
        exact bdInv_getD hst button_id
      · simp only [if_neg hex]
        exact hst

theorem runBinder_tableInv :
    ∀ (files : List String) (st st' : BindState), tableInv st.buttons →
      runBinder st files = Except.ok st' → tableInv st'.buttons
  | [], _, _, hst, h => by
    cases h
    exact hst
  | f :: rest, st, st', hst, h => by
    unfold runBinder at h
    split at h
    · rename_i st1 hstep
      exact runBinder_tableInv rest st1 st' (initButtonsStep_tableInv hst hstep) h
    · exact Except.noConfusion h

/-- Every selector in the output of the binding pass satisfies the
binder invariant. -/
theorem initButtons_binderInv {files : List String} {st : BindState}
    (h : initButtons files = Except.ok st) {b : Int} {bd : ButtonData}
    (hb : dictGet st.buttons b = some bd) {pt : PressType} {g : FilenameGenerator}
    (hg : bd.getGen pt = some g) : binderInv g := by
  have hinv := runBinder_tableInv files ⟨[], []⟩ st tableInv_nil h
  have hbd := hinv b bd hb
  cases pt
  · exact hbd.1 g hg
  · exact hbd.2 g hg

/-- On the generator invariant, `next` succeeds (no IndexError) and
preserves the invariant, for every random draw. -/
theorem next_genInv {g : FilenameGenerator} (h : genInv g) (r : Nat) :
    ∃ f g', g.next r = some (f, g') ∧ genInv g' := by
  obtain ⟨hne, hcnt⟩ := h
  have hpos : 0 < g.filenames.length := List.length_pos.mpr hne
  unfold FilenameGenerator.next
  cases hgt : g.generator_type
  case SINGLE =>
    rw [List.get?_eq_get hpos]
    exact ⟨_, g, rfl, hne, hcnt⟩
  case SEQUENCE =>
    rw [List.get?_eq_get hcnt]
    refine ⟨_, _, rfl, hne, ?_⟩
    dsimp only
    split
    · exact hpos
    · omega
  case RANDOM =>
    by_cases h2 : 2 ≤ g.filenames.length
    · rw [if_pos h2, List.get?_eq_get (Nat.mod_lt r hpos)]
      exact ⟨_, g, rfl, hne, hcnt⟩
    · rw [if_neg h2, List.get?_eq_get hpos]
      exact ⟨_, g, rfl, hne, hcnt⟩

/-- Closed form for the SEQUENCE stream: starting from cursor `c`, the
`k`-th call returns the filename at index `(c + k) mod length`. -/
theorem nextOutputs_sequence (l : List (Int × String)) (hl : l ≠ []) (r : Nat) :
    ∀ (k c : Nat), c < l.length →
      nextOutputs ⟨l, GeneratorType.SEQUENCE, c⟩ r k = (l.get? ((c + k) % l.length)).map Prod.snd
  | 0, c, hc => by
    unfold nextOutputs FilenameGenerator.next
    dsimp only
    rw [List.get?_eq_get hc]
    have hmod : (c + 0) % l.length = c := by
      rw [Nat.add_zero, Nat.mod_eq_of_lt hc]
    rw [hmod, List.get?_eq_get hc]
    rfl
  | k + 1, c, hc => by
    have hpos : 0 < l.length := List.length_pos.mpr hl
    unfold nextOutputs FilenameGenerator.next
    dsimp only
    rw [List.get?_eq_get hc]
    dsimp only [Option.map]
    have hc' : (if l.length ≤ c + 1 then 0 else c + 1) < l.length := by
      split
      · exact hpos
      · omega
    rw [nextOutputs_sequence l hl r k _ hc']
    have h1 : (if l.length ≤ c + 1 then 0 else c + 1) = (c + 1) % l.length := by
      by_cases hle : l.length ≤ c + 1
      · rw [if_pos hle]
        have he : c + 1 = l.length := le_antisymm hc hle
        rw [he, Nat.mod_self]
      · rw [if_neg hle]
        exact (Nat.mod_eq_of_lt (by omega)).symm
    rw [h1, Nat.mod_add_mod]
    have h2 : c + 1 + k = c + (k + 1) := by omega
    rw [h2]
    cases l.get? ((c + (k + 1)) % l.length) <;> rfl

/-- A binder-invariant SEQUENCE generator streams its sorted filename
list cyclically from index 0. -/
theorem binderInv_sequence_stream {g : FilenameGenerator} (hb : binderInv g)
    (hseq : g.generator_type = GeneratorType.SEQUENCE) (r k : Nat) :
    nextOutputs g r k = (g.filenames.get? (k % g.filenames.length)).map Prod.snd := by
  obtain ⟨l, t, c⟩ := g
  obtain ⟨hne, hcnt, _⟩ := hb
  dsimp only at hne hcnt hseq ⊢
  subst hcnt
  subst hseq
  have := nextOutputs_sequence l hne r k 0 (List.length_pos.mpr hne)
  rw [Nat.zero_add] at this
  exact this

/-- In a list sorted by the tuple order, ordinals are nondecreasing. -/
theorem sorted_ordinals {l : List (Int × String)} (hs : List.Sorted lexLe l) :
    ∀ (i j : Nat) (hi : i < l.length) (hj : j < l.length), i ≤ j →
      (l.get ⟨i, hi⟩).1 ≤ (l.get ⟨j, hj⟩).1 := by
  intro i j hi hj hij
  rcases Nat.eq_or_lt_of_le hij with he | hlt
  · subst he
    exact le_refl _
  · have hrel := @List.Sorted.rel_get_of_lt _ _ _ hs ⟨i, hi⟩ ⟨j, hj⟩ (Fin.mk_lt_mk.mpr hlt)
    rcases hrel with h | ⟨h, _⟩
    · exact le_of_lt h
    · exact le_of_eq h

/-- C1: In an armed decision cycle, if the press signal fires again
within the arming window and `last_button_pressed` still equals the armed
button, the cycle classifies exactly one DOUBLE press for that button; if
the signal does not fire again within the window, the cycle classifies
exactly one SINGLE press for the armed button; no cycle produces both
classifications. -/
theorem armed_cycle_classifies (armed : Int) (presses : List Int) :
    (presses ≠ [] → lastAfter armed presses = armed →
      classify armed presses = some (armed, PressType.DOUBLE)) ∧
    (presses = [] → classify armed presses = some (armed, PressType.SINGLE)) ∧
    ¬ (classify armed presses = some (armed, PressType.DOUBLE) ∧
       classify armed presses = some (armed, PressType.SINGLE)) := by
  refine ⟨?_, ?_, ?_⟩
  · intro hne hlast
    unfold classify
    rw [if_pos hlast]
    cases presses with
    | nil => exact absurd rfl hne
    | cons a as => rfl
  · intro he
    subst he
    simp [classify, lastAfter]
  · intro hco
    obtain ⟨h1, h2⟩ := hco
    rw [h1] at h2
    simp at h2

theorem armed_cycle_classifies_witness :
    classify 1 [1] = some (1, PressType.DOUBLE) ∧
    classify 2 [] = some (2, PressType.SINGLE) :=
  ⟨(armed_cycle_classifies 1 [1]).1 (by decide) (by decide),
   (armed_cycle_classifies 2 []).2.1 rfl⟩

/-- C6: a press signal arriving while a sound is playing makes the
monitor terminate the playback and return to IDLE: the cycle makes no
classification (never arms) and requests no playback, and the only state
change is that the sound is no longer playing. -/
theorem press_during_playback_interrupts (st : MachineState) (lastPressed : Int)
    (presses : List Int) (r : Nat) (h : st.soundPlaying = true) :
    monitorCycle st true lastPressed presses r =
      Except.ok ⟨{ st with soundPlaying := false }, true, none, none⟩ := by
  simp [monitorCycle, h]

theorem press_during_playback_interrupts_witness :
    monitorCycle ⟨[], true⟩ true 3 [3] 0 = Except.ok ⟨⟨[], false⟩, true, none, none⟩ :=
  press_during_playback_interrupts ⟨[], true⟩ 3 [3] 0 rfl

/-- C7: when the last window press came from a different button than the
armed one, the cycle classifies nothing, plays nothing, and leaves the
machine state unchanged, so subsequent independent press sequences
classify exactly as they would from the original state. -/
theorem different_button_aborts (st : MachineState) (armed : Int)
    (presses : List Int) (r : Nat) (hplay : st.soundPlaying = false)
    (hdiff : lastAfter armed presses ≠ armed) :
    monitorCycle st true armed presses r = Except.ok ⟨st, false, none, none⟩ := by
  have hcl : classify armed presses = none := by
    unfold classify
    rw [if_neg hdiff]
  simp [monitorCycle, hplay, hcl]

theorem different_button_aborts_witness :
    monitorCycle ⟨[], false⟩ true 1 [2] 0 = Except.ok ⟨⟨[], false⟩, false, none, none⟩ :=
  different_button_aborts ⟨[], false⟩ 1 [2] 0 rfl (by decide)

/-- C5 counterexample: a press event for button 0 when the button table
has no entry for it makes the monitor cycle raise `KeyError` (the raw
dict index `self.buttons[moinitored_button]`), not a silent no-op. -/
theorem missing_button_keyerror :
    monitorCycle ⟨[], false⟩ true 0 [] 0 = Except.error "KeyError" := rfl

/-- C5 amended: a classified press whose resolved press type has no
bound selector is a silent no-op (no playback request, no error); but a
press event for a button id with no entry in the button table raises
`KeyError` instead of being a no-op. -/
theorem lookup_miss_semantics (st : MachineState) (b : Int) (r : Nat)
    (hplay : st.soundPlaying = false) :
    (∀ bd, dictGet st.buttons b = some bd → bd.getGen PressType.SINGLE = none →
        monitorCycle st true b [] r =
          Except.ok ⟨st, false, some (b, PressType.SINGLE), none⟩) ∧
    (∀ bd, dictGet st.buttons b = some bd → bd.getGen PressType.DOUBLE = none →
        monitorCycle st true b [b] r =
          Except.ok ⟨st, false, some (b, PressType.DOUBLE), none⟩) ∧
    (dictGet st.buttons b = none →
        monitorCycle st true b [] r = Except.error "KeyError") := by
  have hc1 : classify b [] = some (b, PressType.SINGLE) := by
    simp [classify, lastAfter]
  have hc2 : classify b [b] = some (b, PressType.DOUBLE) := by
    simp [classify, lastAfter]
  refine ⟨?_, ?_, ?_⟩
  · intro bd hbd hgen
    simp [monitorCycle, hplay, hc1, hbd, hgen]
  · intro bd hbd hgen
    simp [monitorCycle, hplay, hc2, hbd, hgen]
  · intro hbd
    simp [monitorCycle, hplay, hc1, hbd]

theorem lookup_miss_semantics_witness :
    monitorCycle ⟨[(5, ⟨1, 5, none, none⟩)], false⟩ true 5 [] 0 =
      Except.ok ⟨⟨[(5, ⟨1, 5, none, none⟩)], false⟩, false, some (5, PressType.SINGLE), none⟩ :=
  (lookup_miss_semantics ⟨[(5, ⟨1, 5, none, none⟩)], false⟩ 5 0 rfl).1
    ⟨1, 5, none, none⟩ (by decide) rfl

theorem runBinder_cons (st : BindState) (f : String) (rest : List String) :
    runBinder st (f :: rest) =
      match initButtonsStep st f with
      | Except.ok st1 => runBinder st1 rest
      | Except.error e => Except.error e := rfl

/-- C3 counterexample: on the input set `{"x-single.wav"}` the binding
pass raises (`int("x")` raises `ValueError`, uncaught), so it does not
complete without raising, and no "invalid numeric field" rejection is
recorded. -/
theorem binder_nonnumeric_raises :
    initButtons ["x-single.wav"] = Except.error "ValueError" := rfl

/-- C3 amended: a filename whose `button_id` or `ordinal` field does not
parse as an integer makes the binding pass raise `ValueError` and abort
the whole scan (there is no rejection list); only a filename whose
numeric fields parse but whose press-type field is invalid is rejected —
with a logged warning, not a reason record — and scanning continues with
the remaining files. -/
theorem binder_numeric_semantics (st : BindState) (file : String) :
    (parseInt ((fieldsOf file).headD []) = none →
        initButtonsStep st file = Except.error "ValueError") ∧
    (∀ f0 f1 f2 f3 id, fieldsOf file = [f0, f1, f2, f3] → parseInt f0 = some id →
        parseInt f3 = none → initButtonsStep st file = Except.error "ValueError") ∧
    (∀ f0 f1 id, fieldsOf file = [f0, f1] → parseInt f0 = some id →
        f1 ≠ "single".data → f1 ≠ "double".data →
        ∃ st', initButtonsStep st file = Except.ok st' ∧
          st'.warnings = st.warnings ++ [file] ∧
          ∀ rest, runBinder st (file :: rest) = runBinder st' rest) := by
  refine ⟨?_, ?_, ?_⟩
  · intro h
    unfold initButtonsStep
    dsimp only []
    rw [h]
  · intro f0 f1 f2 f3 id hf hp ho
    unfold initButtonsStep
    dsimp only []
    rw [hf]
    simp [hp, ho]
  · intro f0 f1 id hf hp h1 h2
    obtain ⟨st', hstep, hw⟩ :
        ∃ st', initButtonsStep st file = Except.ok st' ∧
          st'.warnings = st.warnings ++ [file] := by
      unfold initButtonsStep
      dsimp only []
      rw [hf]
      simp only [List.headD_cons, List.getD_cons_zero, List.getD_cons_succ, List.length_cons,
        List.length_nil, hp]
      norm_num
      rw [if_neg h1, if_neg h2]
      exact ⟨_, rfl, rfl⟩
    refine ⟨st', hstep, hw, fun rest => ?_⟩
    rw [runBinder_cons, hstep]

theorem binder_numeric_semantics_witness :
    initButtonsStep ⟨[], []⟩ "x-single.wav" = Except.error "ValueError" ∧
    (∃ st', initButtonsStep ⟨[], []⟩ "7-xyz.wav" = Except.ok st' ∧
      st'.warnings = ["7-xyz.wav"]) := by
  constructor
  · exact (binder_numeric_semantics ⟨[], []⟩ "x-single.wav").1 (by decide)
  · obtain ⟨st', hstep, hw, _⟩ :=
      (binder_numeric_semantics ⟨[], []⟩ "7-xyz.wav").2.2 ['7'] ("xyz".data) 7
        (by decide) (by decide) (by decide) (by decide)
    exact ⟨st', hstep, hw⟩

/-- C4 counterexample: `"5-single-x.wav"` has field count 3 (outside
{2, 4}), yet the binder does not reject it: it binds a fixed SINGLE
selector for button 5 and records no rejection. -/
theorem three_field_name_binds :
    (fieldsOf "5-single-x.wav").length = 3 ∧
    initButtons ["5-single-x.wav"] =
      Except.ok ⟨[(5, ⟨1, 5, some ⟨[(1, "5-single-x.wav")], GeneratorType.SINGLE, 0⟩, none⟩)],
        []⟩ := ⟨rfl, rfl⟩

/-- C4 amended: a filename with field count 1 (and a numeric first
field) is skipped silently — no selector bound, but also no recorded
rejection; a filename with field count 3 and a valid press-type field is
not rejected at all: it binds a fixed SINGLE selector for that button.
Only an invalid press-type field produces a (warning-level) rejection. -/
theorem field_count_semantics (st : BindState) (file : String) :
    (∀ f0 id, fieldsOf file = [f0] → parseInt f0 = some id →
        dictGet st.buttons id = none → initButtonsStep st file = Except.ok st) ∧
    (∀ f0 f2 id, fieldsOf file = [f0, "single".data, f2] → parseInt f0 = some id →
        dictGet st.buttons id = none →
        initButtonsStep st file =
          Except.ok ⟨dictSet st.buttons id
            ⟨1, id, some ⟨[(1, file)], GeneratorType.SINGLE, 0⟩, none⟩, st.warnings⟩) := by
  constructor
  · intro f0 id hf hp hd
    unfold initButtonsStep
    dsimp only []
    rw [hf]
    simp [hp, hd]
  · intro f0 f2 id hf hp hd
    unfold initButtonsStep
    dsimp only []
    rw [hf]
    simp [hp, hd, bindGen]

theorem field_count_semantics_witness :
    initButtonsStep ⟨[], []⟩ "9.wav" = Except.ok ⟨[], []⟩ ∧
    initButtonsStep ⟨[], []⟩ "8-single-q.wav" =
      Except.ok ⟨[(8, ⟨1, 8, some ⟨[(1, "8-single-q.wav")], GeneratorType.SINGLE, 0⟩, none⟩)],
        []⟩ := by
  constructor
  · exact (field_count_semantics ⟨[], []⟩ "9.wav").1 ['9'] 9 (by decide) (by decide) rfl
  · exact (field_count_semantics ⟨[], []⟩ "8-single-q.wav").2 ['8'] ['q'] 8
      (by decide) (by decide) rfl

/-- C10: a 4-field filename whose press-type field is `single` or
`double` and whose numeric fields parse, but whose policy field is
neither `sequence` nor `random`, is not rejected: the binder binds
(overwriting any previous selector) a fixed SINGLE-type generator for
that button and press type, and that generator returns exactly this
filename on every call. -/
theorem unknown_policy_binds_fixed (st : BindState) (file : String)
    (f0 f1 f2 f3 : List Char) (id o : Int) (pt : PressType)
    (hf : fieldsOf file = [f0, f1, f2, f3]) (hp : parseInt f0 = some id)
    (ho : parseInt f3 = some o)
    (hpt : (pt = PressType.SINGLE ∧ f1 = "single".data) ∨
           (pt = PressType.DOUBLE ∧ f1 = "double".data))
    (hr : f2 ≠ "random".data) (hs : f2 ≠ "sequence".data) :
    ∃ bd, initButtonsStep st file = Except.ok ⟨dictSet st.buttons id bd, st.warnings⟩ ∧
      bd.getGen pt = some ⟨[(1, file)], GeneratorType.SINGLE, 0⟩ ∧
      ∀ r k, nextOutputs ⟨[(1, file)], GeneratorType.SINGLE, 0⟩ r k = some file := by
  have hstream : ∀ r k, nextOutputs ⟨[(1, file)], GeneratorType.SINGLE, 0⟩ r k = some file := by
    intro r k
    induction k with
    | zero => rfl
    | succ k ih => exact ih
  rcases hpt with ⟨hpt1, hpt2⟩ | ⟨hpt1, hpt2⟩ <;> subst hpt1 <;> subst hpt2
  · obtain ⟨bd, hstep, hbd⟩ :
        ∃ bd, initButtonsStep st file = Except.ok ⟨dictSet st.buttons id bd, st.warnings⟩ ∧
          bd.single = some ⟨[(1, file)], GeneratorType.SINGLE, 0⟩ := by
      unfold initButtonsStep
      dsimp only []
      rw [hf]
      simp [hp, ho, bindGen, hr, hs]
      exact ⟨_, rfl, rfl⟩
    exact ⟨bd, hstep, hbd, hstream⟩
  · obtain ⟨bd, hstep, hbd⟩ :
        ∃ bd, initButtonsStep st file = Except.ok ⟨dictSet st.buttons id bd, st.warnings⟩ ∧
          bd.double = some ⟨[(1, file)], GeneratorType.SINGLE, 0⟩ := by
      unfold initButtonsStep
      dsimp only []
      rw [hf]
      simp [hp, ho, bindGen, hr, hs]
      exact ⟨_, rfl, rfl⟩
    exact ⟨bd, hstep, hbd, hstream⟩

theorem unknown_policy_binds_fixed_witness :
    ∃ bd, initButtonsStep ⟨[], []⟩ "3-double-x-7.wav" = Except.ok ⟨[(3, bd)], []⟩ ∧
      bd.getGen PressType.DOUBLE =
        some ⟨[(1, "3-double-x-7.wav")], GeneratorType.SINGLE, 0⟩ ∧
      nextOutputs ⟨[(1, "3-double-x-7.wav")], GeneratorType.SINGLE, 0⟩ 0 5 =
        some "3-double-x-7.wav" := by
  obtain ⟨bd, h1, h2, h3⟩ :=
    unknown_policy_binds_fixed ⟨[], []⟩ "3-double-x-7.wav" ['3'] ("double".data) ['x'] ['7']
      3 7 PressType.DOUBLE (by decide) (by decide) (by decide) (Or.inr ⟨rfl, rfl⟩)
      (by decide) (by decide)
  exact ⟨bd, h1, h2, h3 0 5⟩

/-- C2: every SEQUENCE selector produced by the binding pass has its
cursor at 0; its calls return the filename at index `k mod n` of its
sorted list (so all bound filenames, in list order, repeating with
period `n` = number of files); and along that list the ordinals are
ascending, so the cycle starts at the lowest ordinal and visits the
files in ascending ordinal order. -/
theorem sequence_selector_cycles {files : List String} {st : BindState} {b : Int}
    {bd : ButtonData} {pt : PressType} {g : FilenameGenerator}
    (h : initButtons files = Except.ok st) (hb : dictGet st.buttons b = some bd)
    (hg : bd.getGen pt = some g) (hseq : g.generator_type = GeneratorType.SEQUENCE) :
    g.counter = 0 ∧
    (∀ r k, nextOutputs g r k = (g.filenames.get? (k % g.filenames.length)).map Prod.snd) ∧
    (∀ r k, nextOutputs g r (k + g.filenames.length) = nextOutputs g r k) ∧
    (∀ (i j : Nat) (hi : i < g.filenames.length) (hj : j < g.filenames.length), i ≤ j →
      (g.filenames.get ⟨i, hi⟩).1 ≤ (g.filenames.get ⟨j, hj⟩).1) := by
  have hbinv := initButtons_binderInv h hb hg
  refine ⟨hbinv.2.1, ?_, ?_, sorted_ordinals hbinv.2.2⟩
  · intro r k
    exact binderInv_sequence_stream hbinv hseq r k
  · intro r k
    rw [binderInv_sequence_stream hbinv hseq, binderInv_sequence_stream hbinv hseq,
      Nat.add_mod_right]

theorem sequence_selector_cycles_witness :
    nextOutputs ⟨[(1, "6-single-sequence-1.wav"), (2, "6-single-sequence-2.wav")],
      GeneratorType.SEQUENCE, 0⟩ 0 0 = some "6-single-sequence-1.wav" ∧
    nextOutputs ⟨[(1, "6-single-sequence-1.wav"), (2, "6-single-sequence-2.wav")],
      GeneratorType.SEQUENCE, 0⟩ 0 1 = some "6-single-sequence-2.wav" ∧
    nextOutputs ⟨[(1, "6-single-sequence-1.wav"), (2, "6-single-sequence-2.wav")],
      GeneratorType.SEQUENCE, 0⟩ 0 2 = some "6-single-sequence-1.wav" := by
  have hth := @sequence_selector_cycles
    ["6-single-sequence-2.wav", "6-single-sequence-1.wav"]
    ⟨[(6, ⟨1, 6, some ⟨[(1, "6-single-sequence-1.wav"), (2, "6-single-sequence-2.wav")],
      GeneratorType.SEQUENCE, 0⟩, none⟩)], []⟩
    6 ⟨1, 6, some ⟨[(1, "6-single-sequence-1.wav"), (2, "6-single-sequence-2.wav")],
      GeneratorType.SEQUENCE, 0⟩, none⟩
    PressType.SINGLE
    ⟨[(1, "6-single-sequence-1.wav"), (2, "6-single-sequence-2.wav")],
      GeneratorType.SEQUENCE, 0⟩
    (by decide) (by decide) rfl rfl
  refine ⟨?_, ?_, ?_⟩
  · rw [hth.2.1 0 0]
    rfl
  · rw [hth.2.1 0 1]
    rfl
  · rw [hth.2.1 0 2]
    rfl

/-- C8 counterexample: a SEQUENCE selector holding `(1, "b.wav")` that
receives `add_filename("a.wav", 1)` — equal ordinals, encounter order
`b.wav` then `a.wav` — ends up with its entries in filename order
`[(1, "a.wav"), (1, "b.wav")]`, not in encounter order. -/
theorem equal_ordinal_not_encounter_order :
    (FilenameGenerator.mk [(1, "b.wav")] GeneratorType.SEQUENCE 0).add_filename "a.wav" 1 =
      Except.ok (FilenameGenerator.mk [(1, "a.wav"), (1, "b.wav")] GeneratorType.SEQUENCE 0) ∧
    [((1 : Int), "a.wav"), (1, "b.wav")] ≠ [((1 : Int), "b.wav"), (1, "a.wav")] := by
  constructor
  · rfl
  · decide

/-- C8 amended: `add_filename` on a non-SINGLE selector appends the new
entry and re-sorts by the full `(ordinal, filename)` tuple (Python
`list.sort()` on tuples), so the entries are always the sorted
permutation of the old entries plus the new one: entries with equal
ordinals appear in filename order, not in encounter order. -/
theorem add_filename_sorts (g : FilenameGenerator) (f : String) (p : Int)
    (h : g.generator_type ≠ GeneratorType.SINGLE) :
    ∃ g', g.add_filename f p = Except.ok g' ∧
      g'.filenames = sortPairs (g.filenames ++ [(p, f)]) ∧
      List.Sorted lexLe g'.filenames ∧
      (g'.filenames).Perm (g.filenames ++ [(p, f)]) ∧
      g'.generator_type = g.generator_type ∧ g'.counter = g.counter := by
  unfold FilenameGenerator.add_filename
  rw [if_neg h]
  exact ⟨_, rfl, rfl, sortPairs_sorted _, sortPairs_perm _, rfl, rfl⟩

theorem add_filename_sorts_witness :
    ∃ g', (FilenameGenerator.mk [(2, "q.wav"), (1, "z.wav")] GeneratorType.RANDOM 0).add_filename
        "p.wav" 1 = Except.ok g' ∧
      g'.filenames = sortPairs ([(2, "q.wav"), (1, "z.wav")] ++ [(1, "p.wav")]) ∧
      List.Sorted lexLe g'.filenames ∧
      (g'.filenames).Perm ([(2, "q.wav"), (1, "z.wav")] ++ [(1, "p.wav")]) ∧
      g'.generator_type = GeneratorType.RANDOM ∧ g'.counter = 0 :=
  add_filename_sorts ⟨[(2, "q.wav"), (1, "z.wav")], GeneratorType.RANDOM, 0⟩ "p.wav" 1
    (by decide)

/-- C9: every selector reachable from the binding pass holds at least
one filename with its cursor in range, and on that invariant `next`
always succeeds — it never indexes an empty list — and returns a
selector that again satisfies the invariant, so the IndexError branch is
unreachable through any sequence of calls. -/
theorem selectors_nonempty_and_safe :
    (∀ files st b bd pt g, initButtons files = Except.ok st →
        dictGet st.buttons b = some bd → bd.getGen pt = some g → genInv g) ∧
    (∀ g r, genInv g → ∃ f g', g.next r = some (f, g') ∧ genInv g') := by
  constructor
  · intro files st b bd pt g h hb hg
    exact binderInv_genInv (initButtons_binderInv h hb hg)
  · intro g r h
    exact next_genInv h r

theorem selectors_nonempty_and_safe_witness :
    genInv ⟨[(1, "7-double.wav")], GeneratorType.SINGLE, 0⟩ ∧
    (∃ f g', (FilenameGenerator.mk [(1, "7-double.wav")] GeneratorType.SINGLE 0).next 0 =
        some (f, g') ∧ genInv g') := by
  constructor
  · exact selectors_nonempty_and_safe.1 ["7-double.wav"]
      ⟨[(7, ⟨1, 7, none, some ⟨[(1, "7-double.wav")], GeneratorType.SINGLE, 0⟩⟩)], []⟩
      7 ⟨1, 7, none, some ⟨[(1, "7-double.wav")], GeneratorType.SINGLE, 0⟩⟩
      PressType.DOUBLE ⟨[(1, "7-double.wav")], GeneratorType.SINGLE, 0⟩
      (by decide) (by decide) rfl
  · exact selectors_nonempty_and_safe.2 ⟨[(1, "7-double.wav")], GeneratorType.SINGLE, 0⟩ 0
      ⟨by decide, by decide⟩
